import Mathlib

/-!
Verification of the redis-rust server core: a shallow embedding of the
RESP codec (src/server/resp_response.rs), the RDB snapshot decoder
(src/server/rdb_parser.rs), the keyspace item (src/server/redis_item.rs)
and the command handlers (src/server/command.rs).

Rust `String` / `&str` values and `Vec<u8>` buffers are both modelled as
`List Nat` of bytes; `SystemTime` is modelled as milliseconds since the
Unix epoch.  Fallible Rust code returning `Result` is modelled with the
`Res` type below, whose `crash` constructor marks a Rust panic
(out-of-bounds index, `unwrap` of `None`, capacity overflow).
-/

/-- Byte strings: the model of Rust `String`, `&str` and `Vec<u8>`. -/
abbrev Str := List Nat

/-- Result of fallible Rust code: `ok`, an `anyhow::Error`, or a panic. -/
inductive Res (α : Type) where
  | ok : α → Res α
  | err : Res α
  | crash : Res α
deriving Repr

/-- The CRLF separator `"\r\n"` (common_variables.rs `CRLF`). -/
def CRLF : Str := [13, 10]

/-- Whether a byte string contains the two-byte sequence CR LF. -/
def containsCRLF : Str → Bool
  | [] => false
  | 13 :: 10 :: _ => true
  | _ :: rest => containsCRLF rest

/-- Helper for `splitCRLF`: prepend a byte to the first fragment. -/
def consHead (c : Nat) : List Str → List Str
  | [] => [[c]]
  | h :: t => (c :: h) :: t

/-- Model of Rust `str::split(CRLF)`: split on non-overlapping
leftmost-first occurrences of CR LF. -/
def splitCRLF : Str → List Str
  | [] => [[]]
  | 13 :: 10 :: rest => [] :: splitCRLF rest
  | c :: rest => consHead c (splitCRLF rest)

/-- Accumulating decimal-digit reader used to model Rust integer `parse`. -/
def digitsGo (acc : Nat) : Str → Option Nat
  | [] => some acc
  | c :: rest =>
      if 48 ≤ c ∧ c ≤ 57 then digitsGo (acc * 10 + (c - 48)) rest else none

/-- Value of a nonempty all-digit byte string, `none` otherwise. -/
def digitsVal (s : Str) : Option Nat :=
  if s.isEmpty then none else digitsGo 0 s

/-- Model of Rust `str::parse::<i32>()`: optional sign, decimal digits,
value must fit in a 32-bit signed integer. -/
def parseI32 (s : Str) : Option Int :=
  match s with
  | [] => none
  | c :: rest =>
      if c = 45 then
        (digitsVal rest).bind (fun n => if n ≤ 2 ^ 31 then some (-(n : Int)) else none)
      else if c = 43 then
        (digitsVal rest).bind (fun n => if n < 2 ^ 31 then some ((n : Int)) else none)
      else
        (digitsVal (c :: rest)).bind (fun n => if n < 2 ^ 31 then some ((n : Int)) else none)

/-- Model of Rust `str::parse::<u64>()`: optional `+`, decimal digits,
value must fit in 64 bits; a leading `-` is rejected. -/
def parseU64 (s : Str) : Option Nat :=
  match s with
  | [] => none
  | c :: rest =>
      if c = 43 then
        (digitsVal rest).bind (fun n => if n < 2 ^ 64 then some n else none)
      else if c = 45 then none
      else
        (digitsVal (c :: rest)).bind (fun n => if n < 2 ^ 64 then some n else none)

/-- Model of Rust `usize as i32` (two's-complement truncation). -/
def asI32 (n : Nat) : Int :=
  ((n % 2 ^ 32 : Nat) : Int) - (if 2 ^ 31 ≤ n % 2 ^ 32 then (2 ^ 32 : Int) else 0)

/-- Model of Rust `format!("{}", n)` for an unsigned integer: decimal digits. -/
def natToStr (n : Nat) : Str :=
  if n < 10 then [48 + n] else natToStr (n / 10) ++ [48 + n % 10]

/-- Model of `to_ascii_uppercase` on bytes. -/
def upperBytes (s : Str) : Str :=
  s.map (fun b => if 97 ≤ b ∧ b ≤ 122 then b - 32 else b)

/-- `RespResponse` (resp_response.rs): the four RESP frame variants. -/
inductive RespResponse where
  | SimpleString : Str → RespResponse
  | BulkString : Str → RespResponse
  | RespArray : List RespResponse → RespResponse
  | NullBulkString : RespResponse
deriving Repr

mutual

/-- `RespResponse::serialize` (resp_response.rs lines 21-35). -/
def serialize : RespResponse → Str
  | .SimpleString s => 43 :: (s ++ CRLF)
  | .BulkString s => 36 :: (natToStr s.length ++ CRLF ++ s ++ CRLF)
  | .RespArray arr => 42 :: (natToStr arr.length ++ CRLF ++ serializeList arr)
  | .NullBulkString => [36, 45, 49, 13, 10]

/-- Concatenation of the serializations of array elements. -/
def serializeList : List RespResponse → Str
  | [] => []
  | r :: rest => serialize r ++ serializeList rest

end

theorem consHead_ne_nil (c : Nat) (l : List Str) : consHead c l ≠ [] := by
  cases l <;> simp [consHead]

theorem splitCRLF_ne_nil (s : Str) : splitCRLF s ≠ [] := by
  induction s using splitCRLF.induct with
  | case1 => simp [splitCRLF]
  | case2 tail ih => simp [splitCRLF]
  | case3 c rest hne ih =>
      rw [splitCRLF.eq_3 c rest hne]
      exact consHead_ne_nil c (splitCRLF rest)

theorem containsCRLF_cons (c : Nat) (rest : Str)
    (hne : ∀ t : Str, c = 13 → rest = 10 :: t → False) :
    containsCRLF (c :: rest) = containsCRLF rest := by
  exact containsCRLF.eq_3 c rest hne

theorem split_noCRLF (s : Str) : containsCRLF s = false → splitCRLF s = [s] := by
  induction s using splitCRLF.induct with
  | case1 => intro _; rfl
  | case2 tail ih => intro h; simp [containsCRLF] at h
  | case3 c rest hne ih =>
      intro h
      rw [containsCRLF_cons c rest hne] at h
      rw [splitCRLF.eq_3 c rest hne, ih h]
      simp [consHead]

theorem splitCRLF_append (xs ys : Str) :
    containsCRLF xs = false →
    splitCRLF (xs ++ 13 :: 10 :: ys) = xs :: splitCRLF ys := by
  induction xs using splitCRLF.induct with
  | case1 => intro _; simp [splitCRLF]
  | case2 tail ih => intro h; simp [containsCRLF] at h
  | case3 c rest hne ih =>
      intro h
      rw [containsCRLF_cons c rest hne] at h
      have hne' : ∀ t : Str, c = 13 → rest ++ 13 :: 10 :: ys = 10 :: t → False := by
        intro t hc hr10
        cases rest with
        | nil => simp at hr10
        | cons a r =>
            simp at hr10
            exact hne r hc (by rw [hr10.1])
      rw [List.cons_append, splitCRLF.eq_3 c _ hne', ih h]
      simp [consHead]

theorem splitCRLF_sum (s : Str) :
    ((splitCRLF s).map List.length).sum + 2 * (splitCRLF s).length = s.length + 2 := by
  induction s using splitCRLF.induct with
  | case1 => simp [splitCRLF]
  | case2 tail ih =>
      rw [splitCRLF.eq_2]
      simp only [List.map_cons, List.sum_cons, List.length_cons, List.length_nil]
      simp only [List.length_cons] at *
      omega
  | case3 c rest hne ih =>
      rw [splitCRLF.eq_3 c rest hne]
      cases h : splitCRLF rest with
      | nil => exact absurd h (splitCRLF_ne_nil rest)
      | cons a t =>
          rw [h] at ih
          simp only [consHead, List.map_cons, List.sum_cons, List.length_cons] at *
          omega

theorem getD_le_sum (L : List Nat) (j : Nat) : L.getD j 0 ≤ L.sum := by
  induction L generalizing j with
  | nil => simp
  | cons a t ih =>
      cases j with
      | zero => simp [List.getD_cons_zero]
      | succ j' =>
          simp only [List.getD_cons_succ, List.sum_cons]
          exact le_add_of_nonneg_of_le (Nat.zero_le a) (ih j')

theorem two_getD_le_sum (L : List Nat) (i j : Nat) (hij : i < j) (hj : j < L.length) :
    L.getD i 0 + L.getD j 0 ≤ L.sum := by
  induction L generalizing i j with
  | nil => simp at hj
  | cons a t ih =>
      cases i with
      | zero =>
          cases j with
          | zero => omega
          | succ j' =>
              simp only [List.getD_cons_zero, List.getD_cons_succ, List.sum_cons]
              exact Nat.add_le_add_left (getD_le_sum t j') a
      | succ i' =>
          cases j with
          | zero => omega
          | succ j' =>
              simp only [List.getD_cons_succ, List.sum_cons]
              simp only [List.length_cons] at hj
              have := ih i' j' (by omega) (by omega)
              omega

theorem length_getD_map (l : List Str) (i : Nat) :
    (l.map List.length).getD i 0 = (l.getD i []).length := by
  induction l generalizing i with
  | nil => simp
  | cons a t ih =>
      cases i with
      | zero => simp [List.getD_cons_zero]
      | succ i' => simpa [List.getD_cons_succ] using ih i'

theorem natToStr_ne_nil (n : Nat) : natToStr n ≠ [] := by
  rw [natToStr]
  split
  case isTrue => simp
  case isFalse => simp

theorem natToStr_digits (n : Nat) : ∀ c ∈ natToStr n, 48 ≤ c ∧ c ≤ 57 := by
  induction n using natToStr.induct with
  | case1 x hx =>
      intro c hc
      rw [natToStr, if_pos hx] at hc
      simp at hc
      omega
  | case2 x hx ih =>
      intro c hc
      rw [natToStr, if_neg hx] at hc
      simp at hc
      rcases hc with h | h
      · exact ih c h
      · have : x % 10 < 10 := Nat.mod_lt x (by omega)
        omega

theorem digit_str_noCRLF (s : Str) (hd : ∀ c ∈ s, 48 ≤ c ∧ c ≤ 57) :
    containsCRLF s = false := by
  induction s using containsCRLF.induct with
  | case1 => rfl
  | case2 tail =>
      have := hd 13 (by simp)
      omega
  | case3 c rest hne ih =>
      rw [containsCRLF_cons c rest hne]
      exact ih (fun c hc => hd c (by simp [hc]))

theorem natToStr_noCRLF (n : Nat) : containsCRLF (natToStr n) = false :=
  digit_str_noCRLF (natToStr n) (natToStr_digits n)

/-- Power-of-ten helper matching the digit count of `natToStr`. -/
def tenPow (n : Nat) : Nat :=
  if n < 10 then 10 else 10 * tenPow (n / 10)

theorem digitsGo_append (acc : Nat) (xs ys : Str) :
    digitsGo acc (xs ++ ys) =
      match digitsGo acc xs with
      | some a => digitsGo a ys
      | none => none := by
  induction xs generalizing acc with
  | nil => simp [digitsGo]
  | cons c rest ih =>
      simp only [List.cons_append, digitsGo]
      split
      case isTrue => exact ih _
      case isFalse => rfl

theorem digitsGo_natToStr (n : Nat) : ∀ acc, digitsGo acc (natToStr n) = some (acc * tenPow n + n) := by
  induction n using natToStr.induct with
  | case1 x hx =>
      intro acc
      rw [natToStr, if_pos hx, tenPow, if_pos hx]
      simp only [digitsGo]
      rw [if_pos (by omega)]
      congr 1
      omega
  | case2 x hx ih =>
      intro acc
      rw [natToStr, if_neg hx, tenPow, if_neg hx]
      rw [digitsGo_append, ih acc]
      have hm : x % 10 < 10 := Nat.mod_lt x (by omega)
      simp only [digitsGo]
      rw [if_pos (by omega)]
      congr 1
      set t := tenPow (x / 10) with ht
      set s := acc * t with hs2
      rw [show acc * (10 * t) = 10 * s from by rw [hs2]; ring]
      omega

theorem digitsVal_natToStr (n : Nat) : digitsVal (natToStr n) = some n := by
  rw [digitsVal, if_neg (by simp [natToStr_ne_nil n])]
  rw [digitsGo_natToStr n 0]
  simp

theorem parseI32_natToStr (n : Nat) (h : n < 2 ^ 31) : parseI32 (natToStr n) = some (n : Int) := by
  cases hs : natToStr n with
  | nil => exact absurd hs (natToStr_ne_nil n)
  | cons c rest =>
      have hc : 48 ≤ c ∧ c ≤ 57 := natToStr_digits n c (by simp [hs])
      rw [parseI32]
      rw [if_neg (by omega), if_neg (by omega)]
      rw [← hs, digitsVal_natToStr n]
      simp only [Option.some_bind]
      rw [if_pos (by omega)]

/-- The bytes of the error reply text returned for an unknown leading byte. -/
def errUnknown : Str :=
  [45, 69, 82, 82, 32, 117, 110, 107, 110, 111, 119, 110, 32, 99, 111, 109, 109, 97, 110, 100]

/-- `parse_simple_string` (resp_response.rs lines 99-102): everything after
the leading byte, trailing CRLF included, becomes the payload. -/
def parse_simple_string (command : Str) : Res (RespResponse × Int) :=
  .ok (.SimpleString (command.drop 1), asI32 (command.drop 1).length)

/-- `parse_bulk_string` (resp_response.rs lines 113-123): split the rest on
CRLF; fragment 0 is the declared length, fragment 1 the payload. -/
def parse_bulk_string (command : Str) : Res (RespResponse × Int) :=
  let parts := splitCRLF (command.drop 1)
  if parts.length < 2 then .err
  else
    match parseI32 (parts.getD 0 []) with
    | none => .err
    | some len => .ok (.BulkString (parts.getD 1 []), len)

mutual

/-- `parse_message` (resp_response.rs lines 81-88): dispatch on the first
byte; indexing an empty buffer panics. -/
def parse_message (command : Str) : Res (RespResponse × Int) :=
  if command.isEmpty then .crash
  else
    if command.headD 0 = 43 then parse_simple_string command
    else if command.headD 0 = 36 then parse_bulk_string command
    else if command.headD 0 = 42 then parse_array command
    else .ok (.SimpleString errUnknown, 0)
termination_by (command.length, 2, 0)
decreasing_by
  exact Prod.Lex.right _ (Prod.Lex.left _ _ (by omega))

/-- `parse_array` (resp_response.rs lines 134-154): parse the element count
from fragment 0, then run the element loop; a negative count makes
`Vec::with_capacity(arr_size as usize)` abort. -/
def parse_array (command : Str) : Res (RespResponse × Int) :=
  match parseI32 ((splitCRLF (command.drop 1)).getD 0 []) with
  | none => .err
  | some arr_size =>
      if arr_size < 0 then .crash
      else
        match parse_array_elems command (splitCRLF (command.drop 1)) 1 arr_size.toNat rfl (by omega) with
        | .ok rs => .ok (.RespArray rs, arr_size)
        | .err => .err
        | .crash => .crash
termination_by (command.length, 1, 0)
decreasing_by
  exact Prod.Lex.right _ (Prod.Lex.left _ _ (by omega))

/-- The element loop of `parse_array` (resp_response.rs lines 141-151):
element `i` is rebuilt as `parts[index] ++ CRLF ++ parts[index+1]` and fed
back to `parse_message`; `parts[index+1]` can index out of bounds. -/
def parse_array_elems (command : Str) (parts : List Str) (index count : Nat)
    (h : parts = splitCRLF (command.drop 1)) (hidx : 1 ≤ index) :
    Res (List RespResponse) :=
  match count with
  | 0 => .ok []
  | n + 1 =>
      if h1 : parts.length ≤ index then .err
      else if h2 : parts.length ≤ index + 1 then .crash
      else
        match parse_message (parts.getD index [] ++ 13 :: 10 :: parts.getD (index + 1) []) with
        | .ok (r, _) =>
            match parse_array_elems command parts (index + 2) n h (by omega) with
            | .ok rs => .ok (r :: rs)
            | .err => .err
            | .crash => .crash
        | .err => .err
        | .crash => .crash
termination_by (command.length, 0, count)
decreasing_by
  · apply Prod.Lex.left
    have hsum := splitCRLF_sum (command.drop 1)
    rw [← h] at hsum
    have h2g := two_getD_le_sum (parts.map List.length) index (index + 1)
      (by omega) (by simpa using (by omega : index + 1 < parts.length))
    rw [length_getD_map, length_getD_map] at h2g
    have hdrop : (command.drop 1).length = command.length - 1 := by simp
    simp only [List.length_append, List.length_cons]
    omega
  · exact Prod.Lex.right _ (Prod.Lex.right _ (by omega))

end

/-- Little-endian value of a byte list (`u64::from_le_bytes` and friends). -/
def leBytes : Str → Nat
  | [] => 0
  | b :: rest => b + 256 * leBytes rest

/-- UTF-8 continuation byte test. -/
def isCont (c : Nat) : Bool := 128 ≤ c ∧ c ≤ 191

/-- Validity check of Rust `String::from_utf8` on a byte list. -/
def utf8Valid : Str → Bool
  | [] => true
  | b :: rest =>
      if b ≤ 127 then utf8Valid rest
      else if 194 ≤ b ∧ b ≤ 223 then
        match rest with
        | c1 :: r => isCont c1 && utf8Valid r
        | [] => false
      else if b = 224 then
        match rest with
        | c1 :: c2 :: r => (160 ≤ c1 && c1 ≤ 191) && isCont c2 && utf8Valid r
        | _ => false
      else if (225 ≤ b ∧ b ≤ 236) ∨ b = 238 ∨ b = 239 then
        match rest with
        | c1 :: c2 :: r => isCont c1 && isCont c2 && utf8Valid r
        | _ => false
      else if b = 237 then
        match rest with
        | c1 :: c2 :: r => (128 ≤ c1 && c1 ≤ 159) && isCont c2 && utf8Valid r
        | _ => false
      else if b = 240 then
        match rest with
        | c1 :: c2 :: c3 :: r => (144 ≤ c1 && c1 ≤ 191) && isCont c2 && isCont c3 && utf8Valid r
        | _ => false
      else if 241 ≤ b ∧ b ≤ 243 then
        match rest with
        | c1 :: c2 :: c3 :: r => isCont c1 && isCont c2 && isCont c3 && utf8Valid r
        | _ => false
      else if b = 244 then
        match rest with
        | c1 :: c2 :: c3 :: r => (128 ≤ c1 && c1 ≤ 143) && isCont c2 && isCont c3 && utf8Valid r
        | _ => false
      else false

/-- `RedisItem` (redis_item.rs): value bytes plus optional expiry instant,
modelled in milliseconds since the Unix epoch. -/
structure RedisItem where
  data : Str
  expiration : Option Nat
deriving Repr, DecidableEq

/-- `RedisItem::new` (redis_item.rs lines 26-31). -/
def RedisItem.new (data : Str) : RedisItem := ⟨data, none⟩

/-- `RedisItem::new_with_expiration` (redis_item.rs lines 52-57). -/
def RedisItem.new_with_expiration (data : Str) (expiration : Nat) : RedisItem :=
  ⟨data, some expiration⟩

/-- `RedisItem::is_expired` (redis_item.rs lines 72-78): true exactly when
`now` is strictly later than the expiry instant. -/
def RedisItem.is_expired (item : RedisItem) (now : Nat) : Bool :=
  match item.expiration with
  | some t => t < now
  | none => false

/-- The keyspace `HashMap<String, RedisItem>` as an association list. -/
abbrev DbMap := List (Str × RedisItem)

/-- `HashMap::insert`: replace an existing binding, else append. -/
def dbInsert (k : Str) (it : RedisItem) : DbMap → DbMap
  | [] => [(k, it)]
  | (k', it') :: rest => if k' = k then (k, it) :: rest else (k', it') :: dbInsert k it rest

/-- `HashMap::get`. -/
def dbLookup (k : Str) : DbMap → Option RedisItem
  | [] => none
  | (k', it) :: rest => if k' = k then some it else dbLookup k rest

/-- `get_decoded_string` (rdb_parser.rs lines 238-245): the length byte is
used directly as a byte count, whatever its value; slicing past the end of
the buffer panics; invalid UTF-8 is an error. -/
def get_decoded_string (contents : Str) (pos : Nat) : Res (Str × Nat) :=
  if pos < contents.length then
    if pos + 1 + contents.getD pos 0 ≤ contents.length then
      if utf8Valid ((contents.drop (pos + 1)).take (contents.getD pos 0)) then
        .ok ((contents.drop (pos + 1)).take (contents.getD pos 0), pos + 1 + contents.getD pos 0)
      else .err
    else .crash
  else .crash

/-- `get_decoded_expiry_time_ms` (rdb_parser.rs lines 194-204). -/
def get_decoded_expiry_time_ms (contents : Str) (pos : Nat) : Res (Nat × Nat) :=
  if contents.length < pos + 8 then .err
  else .ok (leBytes ((contents.drop pos).take 8), pos + 8)

/-- `get_decoded_expiry_time_seconds` (rdb_parser.rs lines 216-225): the
4-byte seconds value converted to milliseconds since the epoch. -/
def get_decoded_expiry_time_seconds (contents : Str) (pos : Nat) : Res (Nat × Nat) :=
  if contents.length < pos + 4 then .err
  else .ok (1000 * leBytes ((contents.drop pos).take 4), pos + 4)

theorem get_decoded_string_lt (c : Str) (p : Nat) (s : Str) (p' : Nat)
    (h : get_decoded_string c p = .ok (s, p')) : p < p' := by
  rw [get_decoded_string] at h
  split at h
  · split at h
    · split at h
      · simp only [Res.ok.injEq, Prod.mk.injEq] at h
        omega
      · cases h
    · cases h
  · cases h

theorem get_decoded_expiry_time_ms_pos (c : Str) (p : Nat) (e : Nat) (p' : Nat)
    (h : get_decoded_expiry_time_ms c p = .ok (e, p')) : p' = p + 8 := by
  rw [get_decoded_expiry_time_ms] at h
  split at h
  · cases h
  · simp only [Res.ok.injEq, Prod.mk.injEq] at h
    omega

theorem get_decoded_expiry_time_seconds_pos (c : Str) (p : Nat) (e : Nat) (p' : Nat)
    (h : get_decoded_expiry_time_seconds c p = .ok (e, p')) : p' = p + 4 := by
  rw [get_decoded_expiry_time_seconds] at h
  split at h
  · cases h
  · simp only [Res.ok.injEq, Prod.mk.injEq] at h
    omega

/-- The scanning loop of `skip_header_metadata` (rdb_parser.rs lines
155-181): scan forward for the hash-table selector 0xFB, skip it and the
two size bytes, and consume (discarding it) one expiry opcode that
immediately follows; the expiry decode result is `unwrap`ed. -/
def shmLoop (contents : Str) (pos : Nat) : Res Nat :=
  if hp : pos < contents.length then
    if contents.getD pos 0 = 251 then
      if h3 : pos + 3 < contents.length then
        if contents.getD (pos + 3) 0 = 252 then
          match get_decoded_expiry_time_ms contents (pos + 3 + 1) with
          | .ok (_, p') => .ok p'
          | _ => .crash
        else if contents.getD (pos + 3) 0 = 253 then
          match get_decoded_expiry_time_seconds contents (pos + 3 + 1) with
          | .ok (_, p') => .ok p'
          | _ => .crash
        else .ok (pos + 3)
      else .crash
    else shmLoop contents (pos + 1)
  else .ok pos
termination_by contents.length - pos

/-- `skip_header_metadata` (rdb_parser.rs lines 155-181): starts at byte 9. -/
def skip_header_metadata (contents : Str) : Res Nat := shmLoop contents 9

mutual

/-- The `while` loop of `parse_rdb_file` (rdb_parser.rs lines 99-141).
After a string record is decoded the byte at the new position is inspected:
if it is an expiry opcode the insertion is deferred (`continue`), otherwise
control falls through to `rdbFinish`.  Inspecting that byte panics at the
end of the buffer. -/
def rdbLoop (contents : Str) (pos : Nat) (cur : Option Nat)
    (gk gv : Option Str) (db : DbMap) : Res DbMap :=
  if hp : pos < contents.length then
    if contents.getD pos 0 = 0 then
      match h1 : get_decoded_string contents (pos + 1) with
      | .err => .err
      | .crash => .crash
      | .ok (key, p1) =>
          match h2 : get_decoded_string contents p1 with
          | .err => .err
          | .crash => .crash
          | .ok (value, p2) =>
              if hp2 : p2 < contents.length then
                if contents.getD p2 0 = 252 ∨ contents.getD p2 0 = 253 then
                  rdbLoop contents p2 cur (some key) (some value) db
                else
                  rdbFinish contents p2 cur (some key) (some value) db
              else .crash
    else if contents.getD pos 0 = 252 then
      match h1 : get_decoded_expiry_time_ms contents (pos + 1) with
      | .err => .err
      | .crash => .crash
      | .ok (e, p1) => rdbFinish contents p1 (some e) gk gv db
    else if contents.getD pos 0 = 253 then
      match h1 : get_decoded_expiry_time_seconds contents (pos + 1) with
      | .err => .err
      | .crash => .crash
      | .ok (e, p1) => rdbFinish contents p1 (some e) gk gv db
    else rdbFinish contents (pos + 1) cur gk gv db
  else .ok db
termination_by (contents.length - pos, 0)
decreasing_by
  · have ha := get_decoded_string_lt _ _ _ _ h1
    have hb := get_decoded_string_lt _ _ _ _ h2
    apply Prod.Lex.left
    omega
  · have ha := get_decoded_string_lt _ _ _ _ h1
    have hb := get_decoded_string_lt _ _ _ _ h2
    apply Prod.Lex.left
    omega
  · have ha := get_decoded_expiry_time_ms_pos _ _ _ _ h1
    apply Prod.Lex.left
    omega
  · have ha := get_decoded_expiry_time_seconds_pos _ _ _ _ h1
    apply Prod.Lex.left
    omega
  · apply Prod.Lex.left
    omega

/-- The end-of-iteration block of `parse_rdb_file` (rdb_parser.rs lines
132-140): both `global_key.take()` and `global_value.take()` run
unconditionally; if both were set, the pair is inserted with the pending
expiry (`current_expiry.take()`), which is thereby cleared. -/
def rdbFinish (contents : Str) (pos : Nat) (cur : Option Nat)
    (gk gv : Option Str) (db : DbMap) : Res DbMap :=
  match gk, gv with
  | some k, some v => rdbLoop contents pos none none none (dbInsert k ⟨v, cur⟩ db)
  | _, _ => rdbLoop contents pos cur none none db
termination_by (contents.length - pos, 1)
decreasing_by
  · exact Prod.Lex.right _ (by omega)
  · exact Prod.Lex.right _ (by omega)

end

/-- `parse_rdb_file` (rdb_parser.rs lines 90-144). -/
def parse_rdb_file (contents : Str) : Res DbMap :=
  match skip_header_metadata contents with
  | .ok pos => rdbLoop contents pos none none none []
  | .err => .err
  | .crash => .crash

/-- `ArgsCli` / `ArgHandler` (arg_handler.rs): optional dir and dbfilename. -/
structure ArgsCli where
  dir : Option Str
  dbfilename : Option Str

/-- The bytes of "PX" (common_variables.rs `PX_ARG_COMMAND`). -/
def PX_ARG_COMMAND : Str := [80, 88]

/-- The bytes of "OK" (common_variables.rs `OK_STR`). -/
def OK_STR : Str := [79, 75]

/-- The bytes of "GET" (common_variables.rs `GET_COMMAND`). -/
def GET_COMMAND : Str := [71, 69, 84]

/-- The bytes of "dir" (common_variables.rs `DIR_ARG_COMMAND`). -/
def DIR_ARG_COMMAND : Str := [100, 105, 114]

/-- The bytes of "dbfilename" (common_variables.rs `DB_FILENAME_ARG_COMMAND`). -/
def DB_FILENAME_ARG_COMMAND : Str := [100, 98, 102, 105, 108, 101, 110, 97, 109, 101]

/-- `RespResponse::get_value` (resp_response.rs lines 63-69): panics
(`none`) on arrays and the null bulk marker. -/
def get_value : RespResponse → Option Str
  | .SimpleString s => some s
  | .BulkString s => some s
  | _ => none

/-- `parse_expiration` (command.rs lines 72-82).  The outer `none` is a
panic (`unwrap` of a missing argument or `get_value` of a non-string);
`some none` means no expiry was recognised.  `now` models
`SystemTime::now()` in milliseconds. -/
def parse_expiration (args : List RespResponse) (now : Nat) : Option (Option Nat) :=
  if 4 ≤ args.length then
    match args.get? 3 with
    | none => none
    | some a3 =>
        match get_value a3 with
        | none => none
        | some s =>
            if upperBytes s = PX_ARG_COMMAND then
              match args.get? 4 with
              | none => none
              | some a4 =>
                  match get_value a4 with
                  | none => none
                  | some t =>
                      match parseU64 t with
                      | some ms => some (some (now + ms))
                      | none => some none
            else some none
  else some none

/-- `handle_set_command` (command.rs lines 94-113): returns the reply and
the updated keyspace; `none` is a panic. -/
def handle_set_command (args : List RespResponse) (db : DbMap) (now : Nat) :
    Option (RespResponse × DbMap) :=
  match args.get? 1 with
  | none => none
  | some a1 =>
      match get_value a1 with
      | none => none
      | some set_key =>
          match args.get? 2 with
          | none => none
          | some a2 =>
              match get_value a2 with
              | none => none
              | some set_value =>
                  match parse_expiration args now with
                  | none => none
                  | some expiration =>
                      let redis_item :=
                        match expiration with
                        | some exp => RedisItem.new_with_expiration set_value exp
                        | none => RedisItem.new set_value
                      some (.SimpleString OK_STR, dbInsert set_key redis_item db)

/-- `handle_get_command` (command.rs lines 125-140); `none` is a panic. -/
def handle_get_command (args : List RespResponse) (db : DbMap) (now : Nat) :
    Option RespResponse :=
  match args.get? 1 with
  | none => none
  | some a1 =>
      match get_value a1 with
      | none => none
      | some get_key =>
          match dbLookup get_key db with
          | some redis_item =>
              if redis_item.is_expired now then some .NullBulkString
              else some (.BulkString redis_item.data)
          | none => some .NullBulkString

/-- `handle_config_get` (command.rs lines 172-193): a recognised key whose
configured value is absent panics on `unwrap` (`none`). -/
def handle_config_get (get_key : Str) (args_cli : ArgsCli) : Option RespResponse :=
  if get_key = DIR_ARG_COMMAND then
    match args_cli.dir with
    | some d => some (.RespArray [.BulkString DIR_ARG_COMMAND, .BulkString d])
    | none => none
  else if get_key = DB_FILENAME_ARG_COMMAND then
    match args_cli.dbfilename with
    | some d => some (.RespArray [.BulkString DB_FILENAME_ARG_COMMAND, .BulkString d])
    | none => none
  else some .NullBulkString

/-- `handle_config` (command.rs lines 152-160): the subcommand at argument
position 1 is compared to "GET" exactly, with no case folding. -/
def handle_config (args : List RespResponse) (args_cli : ArgsCli) : Option RespResponse :=
  match args.get? 1 with
  | none => none
  | some a1 =>
      match get_value a1 with
      | none => none
      | some subcommand =>
          match args.get? 2 with
          | none => none
          | some a2 =>
              match get_value a2 with
              | none => none
              | some get_key =>
                  if subcommand = GET_COMMAND then handle_config_get get_key args_cli
                  else some .NullBulkString

/-- Frames whose round trip through the codec is exact: a bulk string with
no CR LF in the payload and a length the i32 parse accepts. -/
def goodBulk : RespResponse → Bool
  | .BulkString b => !containsCRLF b && decide (b.length < 2 ^ 31)
  | _ => false

/-- Flat serializer-producible frames built from such bulk strings. -/
def flatGood : RespResponse → Bool
  | .BulkString b => goodBulk (.BulkString b)
  | .RespArray l => l.all goodBulk && decide (l.length < 2 ^ 31)
  | _ => false

/-- The count the parser actually returns for a flat frame: the declared
bulk payload length, or the declared element count. -/
def declCount : RespResponse → Int
  | .BulkString b => b.length
  | .RespArray l => l.length
  | _ => 0

/-- The CRLF fragments produced by splitting a serialized list of bulk
strings: a length fragment and a payload fragment per element. -/
def bulkParts : List RespResponse → List Str
  | [] => []
  | .BulkString b :: xs => (36 :: natToStr b.length) :: b :: bulkParts xs
  | _ :: xs => bulkParts xs

theorem no13_noCRLF (s : Str) (hd : ∀ c ∈ s, c ≠ 13) : containsCRLF s = false := by
  induction s using containsCRLF.induct with
  | case1 => rfl
  | case2 tail => exact absurd rfl (hd 13 (by simp))
  | case3 c rest hne ih =>
      rw [containsCRLF_cons c rest hne]
      exact ih (fun c hc => hd c (by simp [hc]))

theorem dollar_natToStr_noCRLF (n : Nat) : containsCRLF (36 :: natToStr n) = false := by
  apply no13_noCRLF
  intro c hc
  simp at hc
  rcases hc with h | h
  · omega
  · have := natToStr_digits n c h
    omega

theorem parse_message_eq_bulk (cmd : Str) (hne : cmd.isEmpty = false) (hh : cmd.headD 0 = 36) :
    parse_message cmd = parse_bulk_string cmd := by
  rw [parse_message.eq_def, hne, hh]
  norm_num

theorem parse_bulk_eval (Ls rest : Str) (L : Int)
    (hLs : containsCRLF Ls = false) (hL : parseI32 Ls = some L) :
    parse_message (36 :: (Ls ++ 13 :: 10 :: rest)) =
      .ok (.BulkString ((splitCRLF rest).getD 0 []), L) := by
  rw [parse_message_eq_bulk _ (by simp) (by simp)]
  rw [parse_bulk_string]
  simp only [List.drop_succ_cons, List.drop_zero]
  rw [splitCRLF_append Ls rest hLs]
  have hpos : 0 < (splitCRLF rest).length := List.length_pos.mpr (splitCRLF_ne_nil rest)
  rw [if_neg (by simp only [List.length_cons]; omega)]
  rw [List.getD_cons_zero, hL]
  simp [List.getD_cons_succ]

theorem parse_serialize_bulk (b : Str) (hb : containsCRLF b = false)
    (hlen : b.length < 2 ^ 31) :
    parse_message (serialize (.BulkString b)) = .ok (.BulkString b, (b.length : Int)) := by
  have hser : serialize (.BulkString b) =
      36 :: (natToStr b.length ++ 13 :: 10 :: (b ++ 13 :: 10 :: [])) := by
    rw [serialize]
    simp [CRLF]
  rw [hser, parse_bulk_eval _ _ _ (natToStr_noCRLF _) (parseI32_natToStr _ hlen)]
  rw [splitCRLF_append b [] hb]
  simp

theorem parse_elem_bulk (b : Str) (hb : containsCRLF b = false) (hlen : b.length < 2 ^ 31) :
    parse_message ((36 :: natToStr b.length) ++ 13 :: 10 :: b) =
      .ok (.BulkString b, (b.length : Int)) := by
  rw [List.cons_append, parse_bulk_eval _ _ _ (natToStr_noCRLF _) (parseI32_natToStr _ hlen)]
  rw [split_noCRLF b hb]
  simp

theorem bulkParts_length (l : List RespResponse) (hg : l.all goodBulk = true) :
    (bulkParts l).length = 2 * l.length := by
  induction l with
  | nil => simp [bulkParts]
  | cons x xs ih =>
      simp only [List.all_cons, Bool.and_eq_true] at hg
      cases x with
      | BulkString b =>
          simp only [bulkParts, List.length_cons]
          rw [ih hg.2]
          omega
      | SimpleString s => simp [goodBulk] at hg
      | RespArray a => simp [goodBulk] at hg
      | NullBulkString => simp [goodBulk] at hg

theorem serializeList_split (l : List RespResponse) (hg : l.all goodBulk = true) :
    splitCRLF (serializeList l) = bulkParts l ++ [[]] := by
  induction l with
  | nil => simp [serializeList, splitCRLF, bulkParts]
  | cons x xs ih =>
      simp only [List.all_cons, Bool.and_eq_true] at hg
      cases x with
      | BulkString b =>
          have hb : containsCRLF b = false := by
            have := hg.1
            simp [goodBulk] at this
            exact this.1
          have hshape : serializeList (.BulkString b :: xs) =
              (36 :: natToStr b.length) ++ 13 :: 10 :: (b ++ 13 :: 10 :: serializeList xs) := by
            rw [serializeList, serialize]
            simp [CRLF]
          rw [hshape, splitCRLF_append _ _ (dollar_natToStr_noCRLF _),
            splitCRLF_append b _ hb, ih hg.2]
          simp [bulkParts]
      | SimpleString s => simp [goodBulk] at hg
      | RespArray a => simp [goodBulk] at hg
      | NullBulkString => simp [goodBulk] at hg

theorem parse_array_elems_bulkParts (l : List RespResponse) :
    ∀ (command : Str) (parts : List Str) (pre : List Str) (index : Nat)
      (h : parts = splitCRLF (command.drop 1)) (hidx : 1 ≤ index),
      l.all goodBulk = true → parts = pre ++ (bulkParts l ++ [[]]) → index = pre.length →
      parse_array_elems command parts index l.length h hidx = .ok l := by
  induction l with
  | nil =>
      intro command parts pre index h hidx hg hparts hix
      rw [parse_array_elems.eq_def]
      simp
  | cons x xs ih =>
      intro command parts pre index h hidx hg hparts hix
      simp only [List.all_cons, Bool.and_eq_true] at hg
      cases x with
      | SimpleString s => simp [goodBulk] at hg
      | RespArray a => simp [goodBulk] at hg
      | NullBulkString => simp [goodBulk] at hg
      | BulkString b =>
          have hgb := hg.1
          simp only [goodBulk, Bool.and_eq_true, Bool.not_eq_true',
            decide_eq_true_eq] at hgb
          have hplen : parts.length = pre.length + 2 * xs.length + 3 := by
            rw [hparts]
            simp only [List.length_append, List.length_cons, bulkParts,
              bulkParts_length xs hg.2, List.length_nil]
            omega
          rw [parse_array_elems.eq_def]
          simp only [List.length_cons]
          rw [dif_neg (by omega), dif_neg (by omega)]
          have hget1 : parts.getD index [] = 36 :: natToStr b.length := by
            rw [hparts, hix, List.getD_append_right _ _ _ _ (le_refl pre.length)]
            simp [bulkParts]
          have hget2 : parts.getD (index + 1) [] = b := by
            rw [hparts, hix, List.getD_append_right _ _ _ _ (by omega : pre.length ≤ pre.length + 1)]
            have h1 : pre.length + 1 - pre.length = 1 := by omega
            rw [h1]
            simp [bulkParts]
          rw [hget1, hget2, parse_elem_bulk b hgb.1 hgb.2]
          rw [ih command parts (pre ++ [36 :: natToStr b.length, b]) (index + 2) h (by omega)
            hg.2
            (by rw [hparts]; simp [bulkParts, List.append_assoc])
            (by simp only [List.length_append, List.length_cons, List.length_nil]; omega)]

theorem parse_serialize_array (l : List RespResponse) (hg : l.all goodBulk = true)
    (hlen : l.length < 2 ^ 31) :
    parse_message (serialize (.RespArray l)) = .ok (.RespArray l, (l.length : Int)) := by
  have hser : serialize (.RespArray l) =
      42 :: (natToStr l.length ++ 13 :: 10 :: serializeList l) := by
    rw [serialize]
    simp [CRLF]
  have hd : (natToStr l.length).headD 0 ≠ 43 ∧ (natToStr l.length).headD 0 ≠ 36 := by
    cases hs : natToStr l.length with
    | nil => exact absurd hs (natToStr_ne_nil _)
    | cons c t =>
        have := natToStr_digits l.length c (by simp [hs])
        constructor <;> simp <;> omega
  rw [hser, parse_message.eq_def]
  rw [if_neg (by simp), if_neg (by simp), if_neg (by simp), if_pos (by simp)]
  rw [parse_array.eq_def]
  have hsp0 : splitCRLF ((42 :: (natToStr l.length ++ 13 :: 10 :: serializeList l)).drop 1) =
      natToStr l.length :: (bulkParts l ++ [[]]) := by
    simp only [List.drop_succ_cons, List.drop_zero]
    rw [splitCRLF_append _ _ (natToStr_noCRLF _), serializeList_split l hg]
  have h0 : parseI32 ((splitCRLF ((42 :: (natToStr l.length ++ 13 :: 10 :: serializeList l)).drop 1)).getD 0 []) =
      some (l.length : Int) := by
    rw [hsp0, List.getD_cons_zero, parseI32_natToStr _ hlen]
  rw [h0]
  simp only
  rw [if_neg (by omega)]
  rw [show ((l.length : Int)).toNat = l.length from Int.toNat_natCast l.length]
  rw [parse_array_elems_bulkParts l _ _ [natToStr l.length] 1 rfl (by omega) hg
    (by rw [hsp0]; simp) (by simp)]

theorem dbLookup_insert_self (k : Str) (it : RedisItem) (db : DbMap) :
    dbLookup k (dbInsert k it db) = some it := by
  induction db with
  | nil => simp [dbInsert, dbLookup]
  | cons p rest ih =>
      obtain ⟨k', it'⟩ := p
      by_cases hk : k' = k
      · simp [dbInsert, dbLookup, hk]
      · simp [dbInsert, dbLookup, hk, ih]

/-- C1 counterexample: the serializer produces the NullBulk frame as
`$-1\r\n`, but parsing those bytes yields the empty BulkString with
consumed count −1, not the NullBulk frame with count 5 = len(serialize). -/
theorem c1_counterexample :
    parse_message (serialize .NullBulkString) = .ok (.BulkString [], -1) ∧
    parse_message (serialize .NullBulkString) ≠
      .ok (.NullBulkString, ((serialize RespResponse.NullBulkString).length : Int)) := by
  have hser : serialize RespResponse.NullBulkString = 36 :: ([45, 49] ++ 13 :: 10 :: []) := by
    rw [serialize]
    rfl
  have h : parse_message (serialize RespResponse.NullBulkString) = .ok (.BulkString [], -1) := by
    rw [hser, parse_bulk_eval [45, 49] [] (-1) (by decide) (by decide)]
    simp [splitCRLF]
  exact ⟨h, by rw [h]; simp⟩

/-- C1 (amended): for frames that are BulkStrings with CRLF-free payloads
of length below 2^31, or arrays of such BulkStrings with fewer than 2^31
elements, parsing the serialized bytes returns the same frame, but the
consumed-byte count returned is the declared payload length (for a bulk
string) or the element count (for an array), not len(serialize(F));
SimpleString and NullBulk frames do not round-trip. -/
theorem c1_roundtrip_amended (F : RespResponse) (h : flatGood F = true) :
    parse_message (serialize F) = .ok (F, declCount F) := by
  cases F with
  | BulkString b =>
      simp only [flatGood, goodBulk, Bool.and_eq_true, Bool.not_eq_true',
        decide_eq_true_eq] at h
      rw [parse_serialize_bulk b h.1 h.2]
      rfl
  | RespArray l =>
      simp only [flatGood, Bool.and_eq_true, decide_eq_true_eq] at h
      rw [parse_serialize_array l h.1 h.2]
      rfl
  | SimpleString s => simp [flatGood] at h
  | NullBulkString => simp [flatGood] at h

/-- C1 witness: a concrete two-element array of bulk strings round-trips
with count 2. -/
theorem c1_witness :
    flatGood (.RespArray [.BulkString [104, 105], .BulkString []]) = true ∧
    parse_message (serialize (.RespArray [.BulkString [104, 105], .BulkString []])) =
      .ok (.RespArray [.BulkString [104, 105], .BulkString []], 2) :=
  ⟨by decide, by
    have h := c1_roundtrip_amended (.RespArray [.BulkString [104, 105], .BulkString []])
      (by decide)
    simpa [declCount] using h⟩

/-- C2 counterexample: a payload containing CR LF is truncated at the first
CR LF by the parser, so BulkString "a\r\nb" does not round-trip. -/
theorem c2_counterexample :
    parse_message (serialize (.BulkString [97, 13, 10, 98])) = .ok (.BulkString [97], 4) ∧
    parse_message (serialize (.BulkString [97, 13, 10, 98])) ≠
      .ok (.BulkString [97, 13, 10, 98], 4) := by
  have hser : serialize (.BulkString [97, 13, 10, 98]) =
      36 :: ([52] ++ 13 :: 10 :: [97, 13, 10, 98, 13, 10]) := by
    rw [serialize]
    simp [CRLF, natToStr]
  have h : parse_message (serialize (.BulkString [97, 13, 10, 98])) =
      .ok (.BulkString [97], 4) := by
    rw [hser, parse_bulk_eval [52] _ 4 (by decide) (by decide),
      show (splitCRLF [97, 13, 10, 98, 13, 10]).getD 0 [] = [97] from by decide]
  exact ⟨h, by rw [h]; simp⟩

/-- C2 (amended): bulk payloads are Rust `String`s, so only UTF-8 byte
sequences are representable at all; for every such payload containing no
CR LF and shorter than 2^31 bytes (NUL and lone CR or LF are fine),
parsing the serialization of BulkString(B) returns BulkString(B).
Payloads containing CR LF are truncated at the CR LF. -/
theorem c2_bulk_roundtrip_amended (b : Str) (hb : containsCRLF b = false)
    (hutf : utf8Valid b = true) (hlen : b.length < 2 ^ 31) :
    parse_message (serialize (.BulkString b)) = .ok (.BulkString b, (b.length : Int)) :=
  parse_serialize_bulk b hb hlen

/-- C2 witness: the payload "a\x00b" with an embedded NUL round-trips. -/
theorem c2_witness :
    parse_message (serialize (.BulkString [97, 0, 98])) = .ok (.BulkString [97, 0, 98], 3) := by
  have h := c2_bulk_roundtrip_amended [97, 0, 98] (by decide) (by decide) (by decide)
  simpa using h

/-- C4 counterexample: on the input `$-1\r\n` the parser does not produce
the NullBulk frame; it produces the empty BulkString with count −1. -/
theorem c4_counterexample :
    parse_message [36, 45, 49, 13, 10] = .ok (.BulkString [], -1) ∧
    parse_message [36, 45, 49, 13, 10] ≠ .ok (.NullBulkString, -1) := by
  have h : parse_message [36, 45, 49, 13, 10] = .ok (.BulkString [], -1) := by
    rw [show ([36, 45, 49, 13, 10] : Str) = 36 :: ([45, 49] ++ 13 :: 10 :: []) from rfl]
    rw [parse_bulk_eval [45, 49] [] (-1) (by decide) (by decide)]
    simp [splitCRLF]
  exact ⟨h, by rw [h]; simp⟩

/-- C4 (amended): for an input beginning with `$`, the parser reads a
signed decimal length L up to the first CRLF and returns it as the count,
but the payload is whatever lies between the first and second CRLF (or to
the end of the input): L = −1 yields the empty BulkString rather than
NullBulk, exactly L bytes are not read, and no trailing CRLF is
required. -/
theorem c4_bulk_parse_amended (Ls data rest : Str) (L : Int)
    (h1 : containsCRLF Ls = false) (h2 : containsCRLF data = false)
    (h3 : parseI32 Ls = some L) :
    parse_message (36 :: (Ls ++ 13 :: 10 :: (data ++ 13 :: 10 :: rest))) =
      .ok (.BulkString data, L) ∧
    parse_message (36 :: (Ls ++ 13 :: 10 :: data)) = .ok (.BulkString data, L) := by
  constructor
  · rw [parse_bulk_eval Ls _ L h1 h3, splitCRLF_append data rest h2]
    simp
  · rw [parse_bulk_eval Ls _ L h1 h3, split_noCRLF data h2]
    simp

/-- C4 witness: input `$5\r\nhi\r\nx` parses to BulkString "hi" with count
5 although only 2 payload bytes are present, and `$5\r\nhi` (no trailing
CRLF) parses the same way. -/
theorem c4_witness :
    parse_message (36 :: ([53] ++ 13 :: 10 :: ([104, 105] ++ 13 :: 10 :: [120]))) =
      .ok (.BulkString [104, 105], 5) ∧
    parse_message (36 :: ([53] ++ 13 :: 10 :: [104, 105])) = .ok (.BulkString [104, 105], 5) :=
  c4_bulk_parse_amended [53] [104, 105] [120] 5 (by decide) (by decide) (by decide)

/-- C5: the parser has no incomplete outcome at all.  The proper prefix
`$5\r\nhello` of the serialized frame `$5\r\nhello\r\n` parses
successfully as a complete BulkString frame, and the proper prefix `$`
returns a plain error (treated as malformed), never an incomplete
indication. -/
theorem c5_prefix_parses_as_complete :
    parse_message [36, 53, 13, 10, 104, 101, 108, 108, 111] =
      .ok (.BulkString [104, 101, 108, 108, 111], 5) ∧
    serialize (.BulkString [104, 101, 108, 108, 111]) =
      [36, 53, 13, 10, 104, 101, 108, 108, 111] ++ [13, 10] ∧
    parse_message [36] = .err := by
  refine ⟨?_, ?_, ?_⟩
  · rw [show ([36, 53, 13, 10, 104, 101, 108, 108, 111] : Str) =
        36 :: ([53] ++ 13 :: 10 :: [104, 101, 108, 108, 111]) from rfl]
    rw [parse_bulk_eval [53] _ 5 (by decide) (by decide), split_noCRLF _ (by decide)]
    simp
  · rw [serialize]
    simp [CRLF, natToStr]
  · rw [parse_message_eq_bulk _ (by simp) (by simp), parse_bulk_string]
    simp [splitCRLF]

/-- C3: GET returns the stored value as a BulkString while now ≤ expires_at,
returns NullBulk strictly after expiry (now > expires_at), and returns
NullBulk for an absent key. -/
theorem c3_get_expiry (k v : Str) (e now : Nat) (db : DbMap) :
    (dbLookup k db = some ⟨v, some e⟩ →
      (now ≤ e → handle_get_command [.BulkString GET_COMMAND, .BulkString k] db now =
          some (.BulkString v)) ∧
      (e < now → handle_get_command [.BulkString GET_COMMAND, .BulkString k] db now =
          some .NullBulkString)) ∧
    (dbLookup k db = none →
      handle_get_command [.BulkString GET_COMMAND, .BulkString k] db now =
        some .NullBulkString) := by
  have hbase : handle_get_command [.BulkString GET_COMMAND, .BulkString k] db now =
      (match dbLookup k db with
       | some redis_item =>
           if redis_item.is_expired now then some .NullBulkString
           else some (.BulkString redis_item.data)
       | none => some .NullBulkString) := rfl
  refine ⟨fun hl => ⟨fun hle => ?_, fun hgt => ?_⟩, fun hl => ?_⟩
  · rw [hbase, hl]
    simp only [RedisItem.is_expired]
    rw [if_neg (by simp only [decide_eq_true_eq]; omega)]
  · rw [hbase, hl]
    simp only [RedisItem.is_expired]
    rw [if_pos (by simp only [decide_eq_true_eq]; omega)]
  · rw [hbase, hl]

/-- C3 witness: with key "k" holding "v" expiring at 5, GET at time 3
returns the value, GET at time 9 returns NullBulk, and GET of the absent
key "j" returns NullBulk. -/
theorem c3_witness :
    handle_get_command [.BulkString GET_COMMAND, .BulkString [107]]
      [([107], ⟨[118], some 5⟩)] 3 = some (.BulkString [118]) ∧
    handle_get_command [.BulkString GET_COMMAND, .BulkString [107]]
      [([107], ⟨[118], some 5⟩)] 9 = some .NullBulkString ∧
    handle_get_command [.BulkString GET_COMMAND, .BulkString [106]]
      [([107], ⟨[118], some 5⟩)] 3 = some .NullBulkString := by
  refine ⟨?_, ?_, ?_⟩
  · exact ((c3_get_expiry [107] [118] 5 3 _).1 (by decide)).1 (by omega)
  · exact ((c3_get_expiry [107] [118] 5 9 _).1 (by decide)).2 (by omega)
  · exact (c3_get_expiry [106] [118] 5 3 _).2 (by decide)

/-- C9: SET k v1 PX 100 followed by SET k v2 (no PX) leaves k holding v2
with no expiration: the insert overwrites the whole entry and the absent
expiry argument clears the prior expiry. -/
theorem c9_overwrite_clears_expiry (k v1 v2 : Str) (db : DbMap) (now1 now2 : Nat) :
    ∃ db1 db2 : DbMap,
      handle_set_command [.BulkString [83, 69, 84], .BulkString k, .BulkString v1,
        .BulkString PX_ARG_COMMAND, .BulkString [49, 48, 48]] db now1 =
        some (.SimpleString OK_STR, db1) ∧
      handle_set_command [.BulkString [83, 69, 84], .BulkString k, .BulkString v2] db1 now2 =
        some (.SimpleString OK_STR, db2) ∧
      dbLookup k db2 = some ⟨v2, none⟩ := by
  refine ⟨dbInsert k ⟨v1, some (now1 + 100)⟩ db,
    dbInsert k ⟨v2, none⟩ (dbInsert k ⟨v1, some (now1 + 100)⟩ db), rfl, rfl, ?_⟩
  exact dbLookup_insert_self k ⟨v2, none⟩ _

/-- C10: a five-argument SET whose fourth argument case-folds to PX but
whose fifth argument fails the u64 parse still replies OK and stores the
value with no expiration: the invalid expiry is silently ignored. -/
theorem c10_invalid_px_ignored (k v px w : Str) (db : DbMap) (now : Nat)
    (hpx : upperBytes px = PX_ARG_COMMAND) (hw : parseU64 w = none) :
    handle_set_command [.BulkString [83, 69, 84], .BulkString k, .BulkString v,
      .BulkString px, .BulkString w] db now =
      some (.SimpleString OK_STR, dbInsert k ⟨v, none⟩ db) := by
  have h1 : parse_expiration [.BulkString [83, 69, 84], .BulkString k, .BulkString v,
      .BulkString px, .BulkString w] now = some none := by
    show (if upperBytes px = PX_ARG_COMMAND then
        match parseU64 w with
        | some ms => some (some (now + ms))
        | none => some none
      else some none) = some none
    rw [if_pos hpx, hw]
  have hbase : handle_set_command [.BulkString [83, 69, 84], .BulkString k, .BulkString v,
      .BulkString px, .BulkString w] db now =
      (match parse_expiration [.BulkString [83, 69, 84], .BulkString k, .BulkString v,
        .BulkString px, .BulkString w] now with
      | none => none
      | some expiration =>
          some (RespResponse.SimpleString OK_STR, dbInsert k
            (match expiration with
             | some exp => RedisItem.new_with_expiration v exp
             | none => RedisItem.new v) db)) := rfl
  rw [hbase, h1]
  rfl

/-- C10 witness: SET k v px a (lowercase px, non-numeric expiry) replies OK
and stores the value without expiration. -/
theorem c10_witness :
    handle_set_command [.BulkString [83, 69, 84], .BulkString [107], .BulkString [118],
      .BulkString [112, 120], .BulkString [97]] [] 7 =
      some (.SimpleString OK_STR, [([107], ⟨[118], none⟩)]) := by
  have h := c10_invalid_px_ignored [107] [118] [112, 120] [97] [] 7 (by decide) (by decide)
  simpa using h

/-- C8 counterexample: with dir configured, CONFIG get dir (lowercase
subcommand) replies NullBulk, not the two-element array the claim's
case-insensitive reading predicts. -/
theorem c8_counterexample :
    handle_config [.BulkString [67], .BulkString [103, 101, 116], .BulkString DIR_ARG_COMMAND]
      ⟨some [47], some [102]⟩ = some .NullBulkString ∧
    some RespResponse.NullBulkString ≠
      some (RespResponse.RespArray [.BulkString DIR_ARG_COMMAND, .BulkString [47]]) := by
  exact ⟨rfl, by simp⟩

/-- C8 (amended): the CONFIG subcommand is compared to "GET"
case-sensitively; with subcommand exactly "GET", the keys dir and
dbfilename reply with the two-element array [name, value] when the
configured value is present, panic on `unwrap` when it is absent, and any
other key (or any non-"GET" subcommand) replies NullBulk. -/
theorem c8_config_get_amended (cfg : ArgsCli) (sub key d f : Str) (a0 : RespResponse) :
    (sub ≠ GET_COMMAND →
      handle_config [a0, .BulkString sub, .BulkString key] cfg = some .NullBulkString) ∧
    (cfg.dir = some d →
      handle_config [a0, .BulkString GET_COMMAND, .BulkString DIR_ARG_COMMAND] cfg =
        some (.RespArray [.BulkString DIR_ARG_COMMAND, .BulkString d])) ∧
    (cfg.dir = none →
      handle_config [a0, .BulkString GET_COMMAND, .BulkString DIR_ARG_COMMAND] cfg = none) ∧
    (cfg.dbfilename = some f →
      handle_config [a0, .BulkString GET_COMMAND, .BulkString DB_FILENAME_ARG_COMMAND] cfg =
        some (.RespArray [.BulkString DB_FILENAME_ARG_COMMAND, .BulkString f])) ∧
    (cfg.dbfilename = none →
      handle_config [a0, .BulkString GET_COMMAND, .BulkString DB_FILENAME_ARG_COMMAND] cfg =
        none) ∧
    (key ≠ DIR_ARG_COMMAND → key ≠ DB_FILENAME_ARG_COMMAND →
      handle_config [a0, .BulkString GET_COMMAND, .BulkString key] cfg =
        some .NullBulkString) := by
  refine ⟨fun hsub => ?_, fun hdir => ?_, fun hdir => ?_, fun hdbf => ?_, fun hdbf => ?_,
    fun hk1 hk2 => ?_⟩
  · show (if sub = GET_COMMAND then handle_config_get key cfg else some .NullBulkString) =
      some .NullBulkString
    rw [if_neg hsub]
  · show (if GET_COMMAND = GET_COMMAND then handle_config_get DIR_ARG_COMMAND cfg
      else some .NullBulkString) =
      some (.RespArray [.BulkString DIR_ARG_COMMAND, .BulkString d])
    rw [if_pos rfl, handle_config_get, if_pos rfl, hdir]
  · show (if GET_COMMAND = GET_COMMAND then handle_config_get DIR_ARG_COMMAND cfg
      else some .NullBulkString) = none
    rw [if_pos rfl, handle_config_get, if_pos rfl, hdir]
  · show (if GET_COMMAND = GET_COMMAND then handle_config_get DB_FILENAME_ARG_COMMAND cfg
      else some .NullBulkString) =
      some (.RespArray [.BulkString DB_FILENAME_ARG_COMMAND, .BulkString f])
    rw [if_pos rfl, handle_config_get, if_neg (by decide), if_pos rfl, hdbf]
  · show (if GET_COMMAND = GET_COMMAND then handle_config_get DB_FILENAME_ARG_COMMAND cfg
      else some .NullBulkString) = none
    rw [if_pos rfl, handle_config_get, if_neg (by decide), if_pos rfl, hdbf]
  · show (if GET_COMMAND = GET_COMMAND then handle_config_get key cfg
      else some .NullBulkString) = some .NullBulkString
    rw [if_pos rfl, handle_config_get, if_neg hk1, if_neg hk2]

/-- C8 witness: with dir set to "/" and dbfilename unset, a lowercase
subcommand replies NullBulk, CONFIG GET dir replies the array, CONFIG GET
dbfilename panics, and an unknown key replies NullBulk. -/
theorem c8_witness :
    handle_config [.BulkString [67], .BulkString [103, 101, 116], .BulkString [120]]
      ⟨some [47], none⟩ = some .NullBulkString ∧
    handle_config [.BulkString [67], .BulkString GET_COMMAND, .BulkString DIR_ARG_COMMAND]
      ⟨some [47], none⟩ =
      some (.RespArray [.BulkString DIR_ARG_COMMAND, .BulkString [47]]) ∧
    handle_config [.BulkString [67], .BulkString GET_COMMAND,
      .BulkString DB_FILENAME_ARG_COMMAND] ⟨some [47], none⟩ = none ∧
    handle_config [.BulkString [67], .BulkString GET_COMMAND, .BulkString [120]]
      ⟨some [47], none⟩ = some .NullBulkString := by
  have h := c8_config_get_amended ⟨some [47], none⟩ [103, 101, 116] [120] [47] [102]
    (.BulkString [67])
  exact ⟨h.1 (by decide), h.2.1 rfl, h.2.2.2.2.1 rfl, h.2.2.2.2.2 (by decide) (by decide)⟩

/-- C7: on an RDB stream whose record length byte is 0xC0 (a special
integer encoding, not the direct N < 64 form) near the end of the buffer,
`get_decoded_string` slices past the end of the buffer and the decoder
panics instead of returning the partial keyspace: the input is
"REDIS0006", 0xFB 0x00 0x00, value-type 0x00, length byte 0xC0, EOF. -/
theorem c7_rdb_length_encoding_crash :
    parse_rdb_file [82, 69, 68, 73, 83, 48, 48, 48, 54, 251, 0, 0, 0, 192] = .crash ∧
    get_decoded_string [82, 69, 68, 73, 83, 48, 48, 48, 54, 251, 0, 0, 0, 192] 13 = .crash := by
  constructor
  · have hshm : shmLoop [82, 69, 68, 73, 83, 48, 48, 48, 54, 251, 0, 0, 0, 192] 9 = .ok 12 := by
      rw [shmLoop.eq_def]
      rfl
    unfold parse_rdb_file skip_header_metadata
    rw [hshm]
    show rdbLoop [82, 69, 68, 73, 83, 48, 48, 48, 54, 251, 0, 0, 0, 192] 12
      none none none [] = .crash
    rw [rdbLoop.eq_def]
    rfl
  · rfl

/-- An RDB stream with the 9-byte header, the hash-table selector 0xFB and
its two size bytes, a string pair ("k","v"), a millisecond expiry opcode
0xFC with eight little-endian bytes, a second string pair ("a","b"), and
the EOF marker 0xFF. -/
def c6Input (b0 b1 b2 b3 b4 b5 b6 b7 : Nat) : Str :=
  [82, 69, 68, 73, 83, 48, 48, 48, 54] ++ [251, 0, 0] ++
    [0, 1, 107, 1, 118] ++ 252 :: [b0, b1, b2, b3, b4, b5, b6, b7] ++
    [0, 1, 97, 1, 98] ++ [255]

theorem rdb_two_pair_run (b0 b1 b2 b3 b4 b5 b6 b7 : Nat) :
    parse_rdb_file (c6Input b0 b1 b2 b3 b4 b5 b6 b7) =
      .ok [([107], ⟨[118], some (leBytes [b0, b1, b2, b3, b4, b5, b6, b7])⟩),
           ([97], ⟨[98], none⟩)] := by
  have hshm : shmLoop (c6Input b0 b1 b2 b3 b4 b5 b6 b7) 9 = .ok 12 := by
    rw [shmLoop.eq_def]
    rfl
  unfold parse_rdb_file skip_header_metadata
  rw [hshm]
  show rdbLoop (c6Input b0 b1 b2 b3 b4 b5 b6 b7) 12 none none none [] = _
  rw [rdbLoop.eq_def]
  show rdbLoop (c6Input b0 b1 b2 b3 b4 b5 b6 b7) 17 none (some [107]) (some [118]) [] = _
  rw [rdbLoop.eq_def]
  show rdbFinish (c6Input b0 b1 b2 b3 b4 b5 b6 b7) 26
    (some (leBytes [b0, b1, b2, b3, b4, b5, b6, b7])) (some [107]) (some [118]) [] = _
  rw [rdbFinish.eq_def]
  show rdbLoop (c6Input b0 b1 b2 b3 b4 b5 b6 b7) 26 none none none
    [([107], ⟨[118], some (leBytes [b0, b1, b2, b3, b4, b5, b6, b7])⟩)] = _
  rw [rdbLoop.eq_def]
  show rdbFinish (c6Input b0 b1 b2 b3 b4 b5 b6 b7) 31 none (some [97]) (some [98])
    [([107], ⟨[118], some (leBytes [b0, b1, b2, b3, b4, b5, b6, b7])⟩)] = _
  rw [rdbFinish.eq_def]
  show rdbLoop (c6Input b0 b1 b2 b3 b4 b5 b6 b7) 31 none none none
    [([107], ⟨[118], some (leBytes [b0, b1, b2, b3, b4, b5, b6, b7])⟩),
     ([97], ⟨[98], none⟩)] = _
  rw [rdbLoop.eq_def]
  show rdbFinish (c6Input b0 b1 b2 b3 b4 b5 b6 b7) 32 none none none
    [([107], ⟨[118], some (leBytes [b0, b1, b2, b3, b4, b5, b6, b7])⟩),
     ([97], ⟨[98], none⟩)] = _
  rw [rdbFinish.eq_def]
  show rdbLoop (c6Input b0 b1 b2 b3 b4 b5 b6 b7) 32 none none none
    [([107], ⟨[118], some (leBytes [b0, b1, b2, b3, b4, b5, b6, b7])⟩),
     ([97], ⟨[98], none⟩)] = _
  rw [rdbLoop.eq_def]
  rfl

/-- C6 counterexample: in the stream of `c6Input` with expiry bytes
1,0,0,0,0,0,0,0 the pair ("k","v"), which has NO preceding expiry opcode,
is stored WITH millisecond expiry 1 (the opcode that follows its value is
attached to it), while the pair ("a","b") immediately following the 0xFC
opcode is stored with NO expiration — the opposite of both attachment
conjuncts of the claim. -/
theorem c6_counterexample :
    parse_rdb_file (c6Input 1 0 0 0 0 0 0 0) =
      .ok [([107], ⟨[118], some 1⟩), ([97], ⟨[98], none⟩)] ∧
    dbLookup [107] [([107], ⟨[118], some 1⟩), ([97], ⟨[98], none⟩)] ≠
      some ⟨[118], none⟩ ∧
    dbLookup [97] [([107], ⟨[118], some 1⟩), ([97], ⟨[98], none⟩)] ≠
      some ⟨[98], some 1⟩ := by
  refine ⟨?_, by decide, by decide⟩
  have h := rdb_two_pair_run 1 0 0 0 0 0 0 0
  simpa using h

/-- C6 (amended): on completing a (key, value) pair the decoder inspects
the byte after the value: if it is an expiry opcode (0xFC/0xFD) the
insertion is deferred, that following opcode is decoded, and its expiry is
attached to that same preceding pair, clearing the pending expiry;
otherwise the pair is stored with the pending expiry if any, and a pair
completed with no pending expiry is stored with no expiration.  In
particular a 0xFC + 8 little-endian-byte opcode placed directly after a
pair's value attaches to the preceding pair, not the following one. -/
theorem c6_expiry_attachment_amended (b0 b1 b2 b3 b4 b5 b6 b7 : Nat)
    (h0 : b0 < 256) (h1 : b1 < 256) (h2 : b2 < 256) (h3 : b3 < 256)
    (h4 : b4 < 256) (h5 : b5 < 256) (h6 : b6 < 256) (h7 : b7 < 256) :
    parse_rdb_file (c6Input b0 b1 b2 b3 b4 b5 b6 b7) =
      .ok [([107], ⟨[118], some (leBytes [b0, b1, b2, b3, b4, b5, b6, b7])⟩),
           ([97], ⟨[98], none⟩)] ∧
    dbLookup [107] [([107], ⟨[118], some (leBytes [b0, b1, b2, b3, b4, b5, b6, b7])⟩),
        ([97], ⟨[98], none⟩)] =
      some ⟨[118], some (leBytes [b0, b1, b2, b3, b4, b5, b6, b7])⟩ ∧
    dbLookup [97] [([107], ⟨[118], some (leBytes [b0, b1, b2, b3, b4, b5, b6, b7])⟩),
        ([97], ⟨[98], none⟩)] =
      some ⟨[98], none⟩ :=
  ⟨rdb_two_pair_run b0 b1 b2 b3 b4 b5 b6 b7, rfl, rfl⟩

/-- C6 witness: expiry bytes 16,1,0,0,0,0,0,0 decode to 272 ms and are
attached to the pair ("k","v") that precedes the opcode. -/
theorem c6_witness :
    parse_rdb_file (c6Input 16 1 0 0 0 0 0 0) =
      .ok [([107], ⟨[118], some 272⟩), ([97], ⟨[98], none⟩)] := by
  have h := (c6_expiry_attachment_amended 16 1 0 0 0 0 0 0
    (by decide) (by decide) (by decide) (by decide)
    (by decide) (by decide) (by decide) (by decide)).1
  simpa using h
